import Mathlib

/-!
Verification of `IgdbParser::ParseSearchByTitleResponse` from
`src/igdb/igdb_parser.cpp` of the espy backend.

The C++ function decodes a textual response with `nlohmann::json::parse`
in non-throwing mode (`json::parse(json_response, nullptr, false)`), then
iterates the decoded value with a range-for loop, and for each iterated
element looks up field `id` (required, `is_number_integer`) and field
`name` (required, `is_string`), building an `igdb::SearchResultList`
protobuf message.  On the first violation it returns an
`absl::InvalidArgumentError` whose message embeds the whole original
input text; on a decode failure (`is_discarded`) it returns an
`absl::InvalidArgumentError` with a fixed message.

The JSON decoder itself is third-party library code, so the embedding is
parameterised over the decoded document: `ParseSearchByTitleResponse`
takes the raw text together with the decode result, where `none` models
`json::parse` returning a discarded value.  Everything downstream of the
decode step is translated directly from the source.
-/

namespace Espy

/-- Untyped JSON tree as decoded by the `nlohmann::json` library: null,
boolean, integer-stored number (`number_integer` / `number_unsigned`,
stored as a machine integer), floating-point number (`number_float`; its
payload is never read by the parser, only its type tag is tested, so it
carries none here), string, array, and object.  Object members are kept
in the order the library stores them (a map ordered by key, with unique
keys). -/
inductive Json : Type where
  | null : Json
  | bool (b : Bool) : Json
  | int (n : Int) : Json
  | float : Json
  | str (s : String) : Json
  | arr (elems : List Json) : Json
  | obj (members : List (String × Json)) : Json

/-- `game.find(key)` on an `nlohmann::json` value: on an object, the
member with the given key (objects store unique keys, so the first match
is the match); on any non-object value `find` returns `end()`, modelled
as `none`. -/
def findField (g : Json) (key : String) : Option Json :=
  match g with
  | Json.obj kvs => (kvs.find? (fun kv => kv.1 == key)).map (fun kv => kv.2)
  | _ => none

/-- `is_number_integer()`: true exactly for integer-stored numbers
(`number_integer` and `number_unsigned`), false for floats and every
other kind of value. -/
def isNumberInteger : Json → Bool
  | Json.int _ => true
  | _ => false

/-- `is_string()`. -/
def isString : Json → Bool
  | Json.str _ => true
  | _ => false

/-- `static_cast<int>` narrowing of the decoder's stored integer to a
32-bit signed machine integer: reduction modulo 2^32 into the interval
[-2^31, 2^31), i.e. two's-complement wrap-around. -/
def toInt32 (n : Int) : Int := (n + 2 ^ 31) % 2 ^ 32 - 2 ^ 31

/-- `get<int>()` on a value already checked with `is_number_integer`:
the stored integer, narrowed to `int`. -/
def getInt : Json → Int
  | Json.int n => n
  | _ => 0

/-- Implicit conversion of a string-typed `nlohmann::json` value to
`std::string` (the argument of `set_title(*it)`). -/
def getStr : Json → String
  | Json.str s => s
  | _ => ""

/-- Range-for iteration over an `nlohmann::json` value
(`for (const auto& game : json_obj)`): an array yields its elements in
order, an object yields its member values (in stored key order), null
yields nothing, and any other (primitive) value yields itself once. -/
def jsonElems : Json → List Json
  | Json.arr xs => xs
  | Json.obj kvs => kvs.map (fun kv => kv.2)
  | Json.null => []
  | v => [v]

/-- One entry of the `igdb::SearchResultList` protobuf message: fields
`id` (32-bit signed, stored here as the mathematical integer produced by
the narrowing) and `title`. -/
structure SearchResult where
  id : Int
  title : String
deriving DecidableEq, Repr

/-- The `igdb::SearchResultList` protobuf message: its repeated field
`result`. -/
structure SearchResultList where
  result : List SearchResult
deriving DecidableEq, Repr

/-- The error outcomes of `ParseSearchByTitleResponse`.  In the source
both are `absl::InvalidArgumentError` values distinguished only by their
message text; the constructors record which return site fired and the
message's variable parts, and `ParseError.message` rebuilds the exact
message string.  `malformedDocument` is the decode-failure site;
`invalidElement field text` is an element-check site, where `field` is
the field name spliced into the message (`"id"` for the id check,
`"title"` for the name check — the source message says `title` there)
and `text` is the full original input embedded via `absl::StrCat`. -/
inductive ParseError : Type where
  | malformedDocument : ParseError
  | invalidElement (field : String) (document_text : String) : ParseError
deriving DecidableEq, Repr

/-- The exact `absl` status message of each error, as written in
`igdb_parser.cpp`. -/
def ParseError.message : ParseError → String
  | ParseError.malformedDocument =>
      "Failed to parse JSON response from IGDB.SearchByTitle."
  | ParseError.invalidElement f t =>
      "Game in response has no \x27" ++ f ++
        "\x27 field or has unexpected type.\n" ++ t

/-- The loop body of `ParseSearchByTitleResponse`, one iteration per
iterated element: find `id`, require `is_number_integer`, store
`get<int>`; then find `name`, require `is_string`, store it as `title`;
abort the whole call with the first failing check's error.  (The source
appends a fresh entry to the protobuf list before the checks and fills
it on success; since the list is dropped whenever an error is returned,
only the all-checks-passed entries are observable, which is what this
function builds.) -/
def parseGames (json_response : String) : List Json → Except ParseError (List SearchResult)
  | [] => Except.ok []
  | game :: rest =>
    match findField game "id" with
    | none => Except.error (ParseError.invalidElement "id" json_response)
    | some v =>
      if isNumberInteger v then
        match findField game "name" with
        | none => Except.error (ParseError.invalidElement "title" json_response)
        | some w =>
          if isString w then
            match parseGames json_response rest with
            | Except.ok rs =>
                Except.ok ({ id := toInt32 (getInt v), title := getStr w } :: rs)
            | Except.error e => Except.error e
          else Except.error (ParseError.invalidElement "title" json_response)
      else Except.error (ParseError.invalidElement "id" json_response)

/-- `IgdbParser::ParseSearchByTitleResponse(json_response)`, with the
decode step factored out: `json_obj` is the result of
`json::parse(json_response, nullptr, false)`, `none` when that result
`is_discarded()`.  A discarded decode returns the fixed
malformed-document error; otherwise the decoded value is iterated and
validated element by element. -/
def ParseSearchByTitleResponse (json_response : String) (json_obj : Option Json) :
    Except ParseError SearchResultList :=
  match json_obj with
  | none => Except.error ParseError.malformedDocument
  | some root =>
    match parseGames json_response (jsonElems root) with
    | Except.ok rs => Except.ok { result := rs }
    | Except.error e => Except.error e

/-- View of an element's `id` field as the parser accepts it: `some n`
exactly when the field is present and integer-typed with stored value
`n`. -/
def fieldInt (g : Json) (key : String) : Option Int :=
  match findField g key with
  | some (Json.int n) => some n
  | _ => none

/-- View of an element's string field: `some s` exactly when the field
is present and string-typed with value `s`. -/
def fieldStr (g : Json) (key : String) : Option String :=
  match findField g key with
  | some (Json.str s) => some s
  | _ => none

/-- An iterated element passes both per-element checks: it has an
integer-typed `id` and a string-typed `name`. -/
def validGame (g : Json) : Bool :=
  (fieldInt g "id").isSome && (fieldStr g "name").isSome

/-- The record the parser builds from a valid element: `id` is the
element's `id` narrowed to 32 bits, `title` is the element's `name`. -/
def recordOf (g : Json) : SearchResult :=
  { id := toInt32 ((fieldInt g "id").getD 0), title := (fieldStr g "name").getD "" }

/-- The error the parser reports for an invalid element: the `id` check
runs first, so a missing or mistyped `id` yields the id-site error, and
otherwise (the element being invalid) the name-site error fires. -/
def gameError (json_response : String) (g : Json) : ParseError :=
  if (fieldInt g "id").isNone then ParseError.invalidElement "id" json_response
  else ParseError.invalidElement "title" json_response

/-- A cons step of the loop, rephrased through the field views: the
first failing check of the head element aborts, otherwise the head's
record is prepended to the outcome on the tail. -/
lemma parseGames_cons (t : String) (g : Json) (gs : List Json) :
    parseGames t (g :: gs) =
      match fieldInt g "id" with
      | none => Except.error (ParseError.invalidElement "id" t)
      | some n =>
        match fieldStr g "name" with
        | none => Except.error (ParseError.invalidElement "title" t)
        | some s =>
          match parseGames t gs with
          | Except.ok rs => Except.ok (({ id := toInt32 n, title := s } : SearchResult) :: rs)
          | Except.error e => Except.error e := by
  cases hid : findField g "id" with
  | none => simp [parseGames, fieldInt, hid]
  | some v =>
    cases v with
    | int n =>
      cases hname : findField g "name" with
      | none => simp [parseGames, fieldInt, fieldStr, hid, hname, isNumberInteger, getInt]
      | some w =>
        cases w <;>
          simp [parseGames, fieldInt, fieldStr, hid, hname, isNumberInteger, isString,
            getInt, getStr]
    | null => simp [parseGames, fieldInt, hid, isNumberInteger]
    | bool b => simp [parseGames, fieldInt, hid, isNumberInteger]
    | float => simp [parseGames, fieldInt, hid, isNumberInteger]
    | str s => simp [parseGames, fieldInt, hid, isNumberInteger]
    | arr xs => simp [parseGames, fieldInt, hid, isNumberInteger]
    | obj kvs => simp [parseGames, fieldInt, hid, isNumberInteger]

/-- If every iterated element passes both checks, the loop succeeds and
returns one record per element, in order. -/
lemma parseGames_ok_of_forall (t : String) (xs : List Json)
    (h : ∀ g ∈ xs, validGame g = true) :
    parseGames t xs = Except.ok (xs.map recordOf) := by
  induction xs with
  | nil => simp [parseGames]
  | cons g gs ih =>
    have hg : validGame g = true := h g (List.mem_cons_self g gs)
    have hgs : ∀ x ∈ gs, validGame x = true := fun x hx => h x (List.mem_cons_of_mem g hx)
    rw [parseGames_cons]
    cases hid : fieldInt g "id" with
    | none => exact absurd hg (by simp [validGame, hid])
    | some n =>
      cases hname : fieldStr g "name" with
      | none => exact absurd hg (by simp [validGame, hid, hname])
      | some s =>
        rw [ih hgs]
        simp [recordOf, hid, hname]

/-- Conversely, a successful loop means every element was valid and the
output is exactly the element-wise records. -/
lemma parseGames_ok_inv (t : String) (xs : List Json) (rs : List SearchResult)
    (h : parseGames t xs = Except.ok rs) :
    (∀ g ∈ xs, validGame g = true) ∧ rs = xs.map recordOf := by
  induction xs generalizing rs with
  | nil =>
    simp only [parseGames] at h
    cases h
    simp
  | cons g gs ih =>
    rw [parseGames_cons] at h
    cases hid : fieldInt g "id" with
    | none => rw [hid] at h; cases h
    | some n =>
      rw [hid] at h
      cases hname : fieldStr g "name" with
      | none => rw [hname] at h; cases h
      | some s =>
        rw [hname] at h
        cases hrec : parseGames t gs with
        | error e => rw [hrec] at h; cases h
        | ok rs2 =>
          rw [hrec] at h
          cases h
          obtain ⟨hall, hmap⟩ := ih rs2 hrec
          refine ⟨?_, ?_⟩
          · intro x hx
            rcases List.mem_cons.mp hx with hx | hx
            · subst hx; simp [validGame, hid, hname]
            · exact hall x hx
          · simp [hmap, recordOf, hid, hname]

/-- Every error the loop can produce is one of the two element-check
errors, and it always embeds the loop's input text. -/
lemma parseGames_error_shape (t : String) (xs : List Json) (e : ParseError)
    (h : parseGames t xs = Except.error e) :
    e = ParseError.invalidElement "id" t ∨ e = ParseError.invalidElement "title" t := by
  induction xs with
  | nil => simp [parseGames] at h
  | cons g gs ih =>
    rw [parseGames_cons] at h
    cases hid : fieldInt g "id" with
    | none => rw [hid] at h; cases h; exact Or.inl rfl
    | some n =>
      rw [hid] at h
      cases hname : fieldStr g "name" with
      | none => rw [hname] at h; cases h; exact Or.inr rfl
      | some s =>
        cases hrec : parseGames t gs with
        | error e2 => rw [hname, hrec] at h; cases h; exact ih hrec
        | ok rs2 => rw [hname, hrec] at h; cases h

/-- The loop stops at the first invalid element: with every element
before it valid, the result is that element's error, whatever follows
it. -/
lemma parseGames_first_invalid (t : String) (pre : List Json) (bad : Json) (suf : List Json)
    (hpre : ∀ g ∈ pre, validGame g = true) (hbad : validGame bad = false) :
    parseGames t (pre ++ bad :: suf) = Except.error (gameError t bad) := by
  induction pre with
  | nil =>
    rw [List.nil_append, parseGames_cons]
    cases hid : fieldInt bad "id" with
    | none => simp [gameError, hid]
    | some n =>
      cases hname : fieldStr bad "name" with
      | none => simp [gameError, hid, hname]
      | some s => exact absurd hbad (by simp [validGame, hid, hname])
  | cons g gs ih =>
    have hg : validGame g = true := hpre g (List.mem_cons_self g gs)
    have hgs : ∀ x ∈ gs, validGame x = true := fun x hx => hpre x (List.mem_cons_of_mem g hx)
    rw [List.cons_append, parseGames_cons]
    cases hid : fieldInt g "id" with
    | none => exact absurd hg (by simp [validGame, hid])
    | some n =>
      cases hname : fieldStr g "name" with
      | none => exact absurd hg (by simp [validGame, hid, hname])
      | some s => rw [ih hgs]

/-- The elements the parser iterates for a given decode result: none
when the decode was discarded, otherwise the range-for elements of the
decoded root. -/
def rootElems : Option Json → List Json
  | none => []
  | some root => jsonElems root

/-- Unfolding of the top-level function on a successful decode. -/
lemma parse_some (t : String) (root : Json) :
    ParseSearchByTitleResponse t (some root) =
      match parseGames t (jsonElems root) with
      | Except.ok rs => Except.ok { result := rs }
      | Except.error e => Except.error e := rfl

/-- Unfolding of the top-level function on a decoded array. -/
lemma parse_arr (t : String) (xs : List Json) :
    ParseSearchByTitleResponse t (some (Json.arr xs)) =
      match parseGames t xs with
      | Except.ok rs => Except.ok { result := rs }
      | Except.error e => Except.error e := rfl

/-- Raw text of the C1 counterexample input (decodes to
`c1Elem` inside a one-element array). -/
def c1Text : String := "[\x7b\"id\": 4294967296, \"name\": \"A\"\x7d]"

/-- The C1 counterexample element: integer `id` 2^32, string `name`. -/
def c1Elem : Json := Json.obj [("id", Json.int 4294967296), ("name", Json.str "A")]

/-- C1 fails as stated: on a one-element array whose element has the
integer-typed `id` 4294967296 and string `name` "A", parse succeeds, but
the record's id is 0, not the element's `id`. -/
theorem C1_counterexample :
    fieldInt c1Elem "id" = some 4294967296 ∧
    ParseSearchByTitleResponse c1Text (some (Json.arr [c1Elem])) =
      Except.ok { result := [{ id := 0, title := "A" }] } ∧
    (0 : Int) ≠ 4294967296 :=
  ⟨rfl, rfl, by decide⟩

/-- C1 (amended): for every input decoding to a top-level array in which
every element passes both field checks (integer-typed `id`, string-typed
`name`), parse succeeds and returns exactly one record per element, in
document order; each record's title equals the element's `name`, and each
record's id equals the element's `id` narrowed to 32-bit two's
complement — hence equals the element's `id` itself whenever that value
is representable in 32-bit signed range. -/
theorem C1_parse_success_mapping (text : String) (xs : List Json)
    (h : ∀ g ∈ xs, validGame g = true) :
    ∃ rs, ParseSearchByTitleResponse text (some (Json.arr xs)) = Except.ok rs ∧
      rs.result = xs.map recordOf ∧
      rs.result.length = xs.length ∧
      rs.result.map SearchResult.title = xs.map (fun g => (fieldStr g "name").getD "") ∧
      rs.result.map SearchResult.id = xs.map (fun g => toInt32 ((fieldInt g "id").getD 0)) ∧
      ∀ g ∈ xs, ∀ n, fieldInt g "id" = some n →
        -2 ^ 31 ≤ n → n < 2 ^ 31 → (recordOf g).id = n := by
  refine ⟨{ result := xs.map recordOf }, ?_, rfl, by simp, ?_, ?_, ?_⟩
  · rw [parse_arr, parseGames_ok_of_forall text xs h]
  · simp [recordOf, List.map_map, Function.comp]
  · simp [recordOf, List.map_map, Function.comp]
  · intro g _ n hn h1 h2
    have e31 : (2 : Int) ^ 31 = 2147483648 := by norm_num
    have e32 : (2 : Int) ^ 32 = 4294967296 := by norm_num
    simp only [recordOf, hn, Option.getD_some, toInt32, e31, e32]
    rw [e31] at h1 h2
    omega

/-- Concrete instance of the amended C1 on the spec's first scenario. -/
theorem C1_parse_success_mapping_witness :
    ∃ rs, ParseSearchByTitleResponse "[\x7b\"id\": 7, \"name\": \"Chrono Trigger\"\x7d]"
        (some (Json.arr [Json.obj [("id", Json.int 7), ("name", Json.str "Chrono Trigger")]])) =
      Except.ok rs ∧
      rs.result = [Json.obj [("id", Json.int 7), ("name", Json.str "Chrono Trigger")]].map recordOf ∧
      rs.result.length = 1 ∧
      rs.result.map SearchResult.title = ["Chrono Trigger"] ∧
      rs.result.map SearchResult.id = [7] ∧
      ∀ g ∈ [Json.obj [("id", Json.int 7), ("name", Json.str "Chrono Trigger")]],
        ∀ n, fieldInt g "id" = some n → -2 ^ 31 ≤ n → n < 2 ^ 31 → (recordOf g).id = n := by
  have h := C1_parse_success_mapping "[\x7b\"id\": 7, \"name\": \"Chrono Trigger\"\x7d]"
    [Json.obj [("id", Json.int 7), ("name", Json.str "Chrono Trigger")]] (by decide)
  simpa using h

/-- Raw text of the C2 counterexample input: a bare object at top
level (the spec's scenario 5). -/
def c2Text : String := "\x7b\"id\": 1, \"name\": \"A\"\x7d"

/-- The decoded C2 counterexample root: an object, not an array. -/
def c2Root : Json := Json.obj [("id", Json.int 1), ("name", Json.str "A")]

/-- C2 fails as stated: a decodable root that is a bare object is not
reported as a malformed document; the range-for iterates the object's
member values, and the value `1` fails the `id` element check instead. -/
theorem C2_counterexample :
    ParseSearchByTitleResponse c2Text (some c2Root) =
      Except.error (ParseError.invalidElement "id" c2Text) ∧
    ParseError.invalidElement "id" c2Text ≠ ParseError.malformedDocument :=
  ⟨rfl, by decide⟩

/-- C2 (amended): parse fails with the malformed-document error exactly
when decoding fails (the decode result is discarded); a decoded root
that is not an array is never reported as a malformed document — it is
iterated element-wise like any other value. -/
theorem C2_malformed_iff_decode_failure (text : String) (j : Option Json) :
    ParseSearchByTitleResponse text j = Except.error ParseError.malformedDocument ↔
      j = none := by
  constructor
  · intro h
    cases j with
    | none => rfl
    | some root =>
      rw [parse_some] at h
      cases hp : parseGames text (jsonElems root) with
      | ok rs => rw [hp] at h; cases h
      | error e =>
        rw [hp] at h
        cases h
        rcases parseGames_error_shape text (jsonElems root) _ hp with h2 | h2 <;> cases h2
  · intro h
    subst h
    rfl

/-- Raw text of the C3 witness input (spec scenario 3). -/
def c3Text : String := "[\x7b\"id\": 1, \"name\": \"A\"\x7d, \x7b\"name\": \"B\"\x7d]"

/-- First (valid) element of the C3 witness input. -/
def c3First : Json := Json.obj [("id", Json.int 1), ("name", Json.str "A")]

/-- Second element of the C3 witness input: missing `id`. -/
def c3Second : Json := Json.obj [("name", Json.str "B")]

/-- C3: if the decoded top-level array has an element whose `id` field
is absent or not integer-typed, parse fails with an element-check
(invalid-element) error and no output list is produced, regardless of
the other elements. -/
theorem C3_invalid_id_fails (text : String) (xs : List Json)
    (h : ∃ g ∈ xs, fieldInt g "id" = none) :
    (∃ f, ParseSearchByTitleResponse text (some (Json.arr xs)) =
        Except.error (ParseError.invalidElement f text)) ∧
    ∀ rs, ParseSearchByTitleResponse text (some (Json.arr xs)) ≠ Except.ok rs := by
  obtain ⟨g, hgmem, hgid⟩ := h
  cases hp : parseGames text xs with
  | ok rs2 =>
    have hvalid := (parseGames_ok_inv text xs rs2 hp).1 g hgmem
    rw [validGame, hgid] at hvalid
    simp at hvalid
  | error e =>
    have hparse : ParseSearchByTitleResponse text (some (Json.arr xs)) = Except.error e := by
      rw [parse_arr, hp]
    have hne : ∀ rs, ParseSearchByTitleResponse text (some (Json.arr xs)) ≠ Except.ok rs := by
      intro rs hok
      rw [hparse] at hok
      cases hok
    rcases parseGames_error_shape text xs e hp with he | he
    · exact ⟨⟨"id", by rw [hparse, he]⟩, hne⟩
    · exact ⟨⟨"title", by rw [hparse, he]⟩, hne⟩

/-- Concrete instance of C3 on the spec's third scenario: second element
missing `id`, first element fully valid. -/
theorem C3_invalid_id_fails_witness :
    (∃ f, ParseSearchByTitleResponse c3Text (some (Json.arr [c3First, c3Second])) =
        Except.error (ParseError.invalidElement f c3Text)) ∧
    ∀ rs, ParseSearchByTitleResponse c3Text (some (Json.arr [c3First, c3Second])) ≠
      Except.ok rs :=
  C3_invalid_id_fails c3Text [c3First, c3Second]
    ⟨c3Second, List.mem_cons_of_mem c3First (List.mem_cons_self c3Second []), rfl⟩

/-- Raw text of the C4 witness input: `name` present but number-typed. -/
def c4Text : String := "[\x7b\"id\": 1, \"name\": 2\x7d]"

/-- The C4 witness element: integer `id`, numeric `name`. -/
def c4Elem : Json := Json.obj [("id", Json.int 1), ("name", Json.int 2)]

/-- C4: if the decoded top-level array has an element whose `name` field
is absent or not string-typed, parse fails with an element-check
(invalid-element) error; and on any successful parse each record's
`title` is exactly the corresponding element's string `name`. -/
theorem C4_invalid_name_fails_title_mapped (text : String) (xs : List Json) :
    ((∃ g ∈ xs, fieldStr g "name" = none) →
      ∃ f, ParseSearchByTitleResponse text (some (Json.arr xs)) =
        Except.error (ParseError.invalidElement f text)) ∧
    ∀ rs, ParseSearchByTitleResponse text (some (Json.arr xs)) = Except.ok rs →
      rs.result.map SearchResult.title = xs.map (fun g => (fieldStr g "name").getD "") := by
  constructor
  · intro h
    obtain ⟨g, hgmem, hgname⟩ := h
    cases hp : parseGames text xs with
    | ok rs2 =>
      have hvalid := (parseGames_ok_inv text xs rs2 hp).1 g hgmem
      rw [validGame, hgname] at hvalid
      simp at hvalid
    | error e =>
      have hparse : ParseSearchByTitleResponse text (some (Json.arr xs)) = Except.error e := by
        rw [parse_arr, hp]
      rcases parseGames_error_shape text xs e hp with he | he
      · exact ⟨"id", by rw [hparse, he]⟩
      · exact ⟨"title", by rw [hparse, he]⟩
  · intro rs hok
    rw [parse_arr] at hok
    cases hp : parseGames text xs with
    | error e => rw [hp] at hok; cases hok
    | ok rs2 =>
      rw [hp] at hok
      cases hok
      obtain ⟨_, hmap⟩ := parseGames_ok_inv text xs rs2 hp
      simp [hmap, recordOf, List.map_map, Function.comp]

/-- Concrete instance of C4: one element whose `name` is a number. -/
theorem C4_invalid_name_fails_title_mapped_witness :
    ∃ f, ParseSearchByTitleResponse c4Text (some (Json.arr [c4Elem])) =
      Except.error (ParseError.invalidElement f c4Text) :=
  (C4_invalid_name_fails_title_mapped c4Text [c4Elem]).1
    ⟨c4Elem, List.mem_cons_self c4Elem [], rfl⟩

/-- Raw text of the C5 witness input: an array holding one empty
object. -/
def c5Text : String := "[\x7b\x7d]"

/-- C5: whenever parse fails with an element-check (invalid-element)
error, the error's embedded document text is the complete original input
text, and the rendered status message has the full input text as a
suffix. -/
theorem C5_error_embeds_full_text (text : String) (j : Option Json) (f t : String)
    (h : ParseSearchByTitleResponse text j = Except.error (ParseError.invalidElement f t)) :
    t = text ∧
    ∃ p, (ParseError.invalidElement f t).message = p ++ text := by
  have ht : t = text := by
    cases j with
    | none => simp [ParseSearchByTitleResponse] at h
    | some root =>
      rw [parse_some] at h
      cases hp : parseGames text (jsonElems root) with
      | ok rs => rw [hp] at h; cases h
      | error e =>
        rw [hp] at h
        cases h
        rcases parseGames_error_shape text (jsonElems root) _ hp with he | he
        · simp only [ParseError.invalidElement.injEq] at he
          exact he.2
        · simp only [ParseError.invalidElement.injEq] at he
          exact he.2
  subst ht
  exact ⟨rfl, "Game in response has no \x27" ++ f ++ "\x27 field or has unexpected type.\n", rfl⟩

/-- Concrete instance of C5: the element-check error on `[ { } ]` embeds
the whole input text. -/
theorem C5_error_embeds_full_text_witness :
    c5Text = c5Text ∧
    ∃ p, (ParseError.invalidElement "id" c5Text).message = p ++ c5Text :=
  C5_error_embeds_full_text c5Text (some (Json.arr [Json.obj []])) "id" c5Text rfl

/-- C6: parse is all-or-nothing — for every input it either fails with
an error, or succeeds with a list in which every record comes from an
iterated element that passed both field checks (its id from the
element's integer `id`, its title from the element's string `name`); no
other record ever appears in a returned list. -/
theorem C6_all_or_nothing (text : String) (j : Option Json) :
    (∃ e, ParseSearchByTitleResponse text j = Except.error e) ∨
    (∃ rs, ParseSearchByTitleResponse text j = Except.ok rs ∧
      ∀ r ∈ rs.result, ∃ g ∈ rootElems j, validGame g = true ∧ r = recordOf g) := by
  cases j with
  | none => exact Or.inl ⟨ParseError.malformedDocument, rfl⟩
  | some root =>
    cases hp : parseGames text (jsonElems root) with
    | error e => exact Or.inl ⟨e, by rw [parse_some, hp]⟩
    | ok rs2 =>
      refine Or.inr ⟨{ result := rs2 }, by rw [parse_some, hp], ?_⟩
      intro r hr
      obtain ⟨hall, hmap⟩ := parseGames_ok_inv text (jsonElems root) rs2 hp
      rw [hmap] at hr
      obtain ⟨g, hg, hrec⟩ := List.mem_map.mp hr
      exact ⟨g, hg, hall g hg, hrec.symm⟩

/-- C7: parse is a total function — for every input it returns either a
success value or a tagged error, and in particular a decode failure
(structural syntax error) is reported as the recoverable
malformed-document error, never as an abort. -/
theorem C7_total_and_recoverable (text : String) (j : Option Json) :
    ((∃ rs, ParseSearchByTitleResponse text j = Except.ok rs) ∨
      (∃ e, ParseSearchByTitleResponse text j = Except.error e)) ∧
    ParseSearchByTitleResponse text none = Except.error ParseError.malformedDocument := by
  constructor
  · cases hp : ParseSearchByTitleResponse text j with
    | ok rs => exact Or.inl ⟨rs, rfl⟩
    | error e => exact Or.inr ⟨e, rfl⟩
  · rfl

/-- C8: parse is deterministic — two calls on equal input text with the
equal decode result return identical outcomes. -/
theorem C8_deterministic (t1 t2 : String) (j1 j2 : Option Json)
    (ht : t1 = t2) (hj : j1 = j2) :
    ParseSearchByTitleResponse t1 j1 = ParseSearchByTitleResponse t2 j2 := by
  subst ht
  subst hj
  rfl

/-- Concrete instance of C8: two identical calls agree. -/
theorem C8_deterministic_witness :
    ParseSearchByTitleResponse "[]" (some (Json.arr [])) =
      ParseSearchByTitleResponse "[]" (some (Json.arr [])) :=
  C8_deterministic "[]" "[]" (some (Json.arr [])) (some (Json.arr [])) rfl rfl

/-- C9: the first invalid element decides the outcome — with every
element before it valid, parse fails with exactly that element's error;
the `id` check runs before the `name` check, so an element whose `id`
field is absent or mistyped (in particular one missing both fields)
yields the id-site error; and the elements after the first invalid one
are never examined: replacing them with anything leaves the result
unchanged. -/
theorem C9_first_error_wins (text : String) (pre : List Json) (bad : Json) (suf : List Json)
    (hpre : ∀ g ∈ pre, validGame g = true) (hbad : validGame bad = false) :
    ParseSearchByTitleResponse text (some (Json.arr (pre ++ bad :: suf))) =
      Except.error (gameError text bad) ∧
    (fieldInt bad "id" = none →
      gameError text bad = ParseError.invalidElement "id" text) ∧
    ∀ suf2 : List Json,
      ParseSearchByTitleResponse text (some (Json.arr (pre ++ bad :: suf2))) =
        ParseSearchByTitleResponse text (some (Json.arr (pre ++ bad :: suf))) := by
  have key : ∀ s : List Json,
      ParseSearchByTitleResponse text (some (Json.arr (pre ++ bad :: s))) =
        Except.error (gameError text bad) := by
    intro s
    rw [parse_arr, parseGames_first_invalid text pre bad s hpre hbad]
  refine ⟨key suf, ?_, fun s2 => (key s2).trans (key suf).symm⟩
  intro hid
  simp [gameError, hid]

/-- Raw text of the C9 witness input: a valid element, then an element
missing both fields, then a trailing element of a different shape. -/
def c9Text : String := "[\x7b\"id\": 1, \"name\": \"A\"\x7d, \x7b\x7d, 1.5]"

/-- Valid first element of the C9 witness input. -/
def c9First : Json := Json.obj [("id", Json.int 1), ("name", Json.str "A")]

/-- Concrete instance of C9: the empty object in second position is
missing both fields, and the reported error is the id-site error. -/
theorem C9_first_error_wins_witness :
    ParseSearchByTitleResponse c9Text (some (Json.arr ([c9First] ++ Json.obj [] :: [Json.float]))) =
      Except.error (ParseError.invalidElement "id" c9Text) := by
  have h := C9_first_error_wins c9Text [c9First] (Json.obj []) [Json.float]
    (by decide) (by decide)
  rw [h.1, h.2.1 rfl]

/-- Raw text of the C10 witness input: an `id` beyond 32-bit range. -/
def c10Text : String := "[\x7b\"id\": 4294967301, \"name\": \"B\"\x7d]"

/-- The C10 witness element: integer `id` 2^32 + 5, string `name`. -/
def c10Elem : Json := Json.obj [("id", Json.int 4294967301), ("name", Json.str "B")]

/-- C10: the parser narrows each accepted `id` to a 32-bit signed
machine integer — on a fully valid array it succeeds (an out-of-range
`id` is not rejected) with each record's id equal to `toInt32` of the
element's stored `id`; `toInt32` is the identity exactly on the 32-bit
signed range, agrees with the source value modulo 2^32, and always lands
in the 32-bit signed range. -/
theorem C10_id_narrowing (text : String) (xs : List Json)
    (h : ∀ g ∈ xs, validGame g = true) :
    (∃ rs, ParseSearchByTitleResponse text (some (Json.arr xs)) = Except.ok rs ∧
      rs.result = xs.map recordOf) ∧
    (∀ g ∈ xs, ∀ n, fieldInt g "id" = some n → (recordOf g).id = toInt32 n) ∧
    (∀ n : Int, -2 ^ 31 ≤ n → n < 2 ^ 31 → toInt32 n = n) ∧
    (∀ n : Int, toInt32 n % 2 ^ 32 = n % 2 ^ 32) ∧
    (∀ n : Int, -2 ^ 31 ≤ toInt32 n ∧ toInt32 n < 2 ^ 31) := by
  have e31 : (2 : Int) ^ 31 = 2147483648 := by norm_num
  have e32 : (2 : Int) ^ 32 = 4294967296 := by norm_num
  refine ⟨⟨{ result := xs.map recordOf }, ?_, rfl⟩, ?_, ?_, ?_, ?_⟩
  · rw [parse_arr, parseGames_ok_of_forall text xs h]
  · intro g _ n hn
    simp [recordOf, hn]
  · intro n h1 h2
    rw [e31] at h1 h2
    simp only [toInt32, e31, e32]
    omega
  · intro n
    simp only [toInt32, e31, e32]
    omega
  · intro n
    simp only [toInt32, e31, e32]
    omega

/-- Concrete instance of C10: `id` 4294967301 = 2^32 + 5 is accepted and
narrowed to 5. -/
theorem C10_id_narrowing_witness :
    ParseSearchByTitleResponse c10Text (some (Json.arr [c10Elem])) =
      Except.ok { result := [{ id := 5, title := "B" }] } ∧
    toInt32 4294967301 = 5 := by
  have h := C10_id_narrowing c10Text [c10Elem] (by decide)
  obtain ⟨⟨rs, hok, hres⟩, _⟩ := h
  constructor
  · rw [hok]
    cases rs with
    | mk res =>
      simp only at hres
      rw [hres]
      rfl
  · decide

example : ParseSearchByTitleResponse "x" none = Except.error ParseError.malformedDocument := rfl

example :
    ParseSearchByTitleResponse "t"
      (some (Json.arr [Json.obj [("id", Json.int 7), ("name", Json.str "Chrono Trigger")]])) =
    Except.ok { result := [{ id := 7, title := "Chrono Trigger" }] } := rfl

example :
    ParseSearchByTitleResponse "t" (some (Json.arr [Json.obj [("name", Json.str "B")]])) =
    Except.error (ParseError.invalidElement "id" "t") := rfl

example :
    ParseSearchByTitleResponse "t" (some (Json.obj [("id", Json.int 1), ("name", Json.str "A")])) =
    Except.error (ParseError.invalidElement "id" "t") := rfl

example : ParseSearchByTitleResponse "t" (some Json.null) = Except.ok { result := [] } := rfl

example : toInt32 4294967296 = 0 := by decide

end Espy
